import Mathlib

/-!
Verification of the aurelia-kendoui-bridge adapter layer.

The development shallowly embeds the shared `WidgetBase` helper
(`common/widget-base`) and the per-widget adapters (`TreeMap`, `Tooltip`,
`Calendar`, `AuToolbar`) found in the repository source.  JavaScript objects
are modelled as association lists of string keys and `JsValue`s, the mutable
object graph as a small heap of numbered references, and the asynchronous
event re-dispatch as an explicit micro-task queue.  Helpers that the source
tree references but does not contain (`pruneOptions`, `_hyphenate`,
`getEventsFromAttributes`, `getBindablePropertyName`,
`handlePropertyChanged`, and the task queue) are modelled from the
specification and are marked as such in their doc comments.
-/

/-- A JavaScript runtime value, restricted to the shapes this layer
manipulates.  `undefined` is JavaScript's `undefined`, `ref` is a reference into
the object heap, `handler` is the event-proxy closure that
`WidgetBase.getEventOptions` stores in the options object (it captures the
host element and the native event name), and `arrOne` is a one-element array
(the only array the layer builds is the `[parentCtx]` wrapper). -/
inductive JsValue where
  | undefined
  | null
  | bool (b : Bool)
  | num (n : Int)
  | str (s : String)
  | ref (r : Nat)
  | handler (elemId : Nat) (event : String)
  | arrOne (v : JsValue)
  deriving DecidableEq

/-- JavaScript truthiness of a value (`if (v)`). -/
def JsValue.truthy : JsValue → Bool
  | .undefined => false
  | .null => false
  | .bool b => b
  | .num n => n != 0
  | .str s => s != ""
  | .ref _ => true
  | .handler _ _ => true
  | .arrOne _ => true

/-- A value is defined when it is neither `undefined` nor `null`; this is the
predicate the option pruning keeps. -/
def JsValue.isDefined : JsValue → Bool
  | .undefined => false
  | .null => false
  | _ => true

/-- The own enumerable fields of a JavaScript object, in insertion order. -/
abbrev Obj := List (String × JsValue)

/-- Property read `o[k]`: the first entry with key `k`, if any.  (Objects
built by this development never carry duplicate keys.) -/
def Obj.get : Obj → String → Option JsValue
  | [], _ => none
  | (k', v) :: rest, k => if k' = k then some v else Obj.get rest k

/-- Property write `o[k] = v`: updates the existing entry in place, else
appends a new one — JavaScript's own-property assignment. -/
def Obj.set : Obj → String → JsValue → Obj
  | [], k, v => [(k, v)]
  | (k', v') :: rest, k, v => if k' = k then (k, v) :: rest else (k', v') :: Obj.set rest k v

/-- `Object.assign(target, source)`: copies every own enumerable entry of the
source into the target, later entries overriding earlier ones. -/
def Obj.assignObj (t : Obj) : Obj → Obj
  | [] => t
  | p :: rest => Obj.assignObj (t.set p.1 p.2) rest

/-- The value a list of entries contributes when used as an `Object.assign`
source for key `k`: the last entry with that key wins. -/
def Obj.srcGet : Obj → String → Option JsValue
  | [], _ => none
  | (k', v) :: rest, k =>
    match Obj.srcGet rest k with
    | some w => some w
    | none => if k' = k then some v else none

/-- The key list of an object. -/
def Obj.keys (o : Obj) : List String := o.map Prod.fst

/-- An object representing a JavaScript runtime object has pairwise distinct
keys. -/
def Obj.NodupKeys (o : Obj) : Prop := o.keys.Nodup

instance (o : Obj) : Decidable o.NodupKeys := by
  unfold Obj.NodupKeys; infer_instance

/-- How many entries of `o` carry key `k`. -/
def Obj.countKey (o : Obj) (k : String) : Nat := o.keys.count k

theorem Obj.get_set (o : Obj) (k : String) (v : JsValue) (k' : String) :
    (o.set k v).get k' = if k = k' then some v else o.get k' := by
  induction o with
  | nil => simp [Obj.set, Obj.get]
  | cons p rest ih =>
    obtain ⟨pk, pv⟩ := p
    by_cases h1 : pk = k
    · subst h1
      by_cases h2 : pk = k' <;> simp [Obj.set, Obj.get, h2]
    · by_cases h2 : pk = k'
      · subst h2
        have hk : ¬ k = pk := fun h => h1 h.symm
        simp [Obj.set, Obj.get, h1, hk]
      · simp [Obj.set, Obj.get, h1, h2, ih]

theorem Obj.keys_cons (p : String × JsValue) (rest : Obj) :
    Obj.keys (p :: rest) = p.1 :: Obj.keys rest := rfl

theorem Obj.mem_keys_set (o : Obj) (k : String) (v : JsValue) (a : String) :
    a ∈ (o.set k v).keys ↔ a = k ∨ a ∈ o.keys := by
  induction o with
  | nil => simp [Obj.set, Obj.keys]
  | cons p rest ih =>
    obtain ⟨pk, pv⟩ := p
    by_cases h1 : pk = k
    · subst h1
      have hset : Obj.set ((pk, pv) :: rest) pk v = (pk, v) :: rest := by
        simp [Obj.set]
      rw [hset]
      simp only [Obj.keys_cons, List.mem_cons]
      constructor
      · rintro (h | h) <;> simp [h]
      · rintro (h | h | h) <;> simp [h]
    · simp only [Obj.set, if_neg h1, Obj.keys_cons, List.mem_cons, ih]
      tauto

theorem Obj.nodupKeys_set (o : Obj) (k : String) (v : JsValue) (h : o.NodupKeys) :
    (o.set k v).NodupKeys := by
  induction o with
  | nil => simp [Obj.set, Obj.NodupKeys, Obj.keys]
  | cons p rest ih =>
    obtain ⟨pk, pv⟩ := p
    rw [Obj.NodupKeys, Obj.keys, List.map_cons, List.nodup_cons] at h
    obtain ⟨hnotin, hrest⟩ := h
    by_cases h1 : pk = k
    · subst h1
      rw [Obj.NodupKeys, Obj.set, if_pos rfl, Obj.keys, List.map_cons, List.nodup_cons]
      exact ⟨hnotin, hrest⟩
    · have ihr := ih hrest
      rw [Obj.NodupKeys, Obj.set, if_neg h1, Obj.keys, List.map_cons, List.nodup_cons]
      constructor
      · intro hmem
        rcases (Obj.mem_keys_set rest k v pk).mp hmem with h | h
        · exact h1 h
        · exact hnotin h
      · exact ihr

theorem Obj.srcGet_eq_none_of_not_mem (o : Obj) (k : String) (h : k ∉ o.keys) :
    o.srcGet k = none := by
  induction o with
  | nil => rfl
  | cons p rest ih =>
    obtain ⟨pk, pv⟩ := p
    rw [Obj.keys_cons, List.mem_cons] at h
    push_neg at h
    have h1 : ¬ pk = k := fun hh => h.1 hh.symm
    rw [Obj.srcGet, ih h.2]
    simp [h1]

theorem Obj.get_eq_none_of_not_mem (o : Obj) (k : String) (h : k ∉ o.keys) :
    o.get k = none := by
  induction o with
  | nil => rfl
  | cons p rest ih =>
    obtain ⟨pk, pv⟩ := p
    rw [Obj.keys_cons, List.mem_cons] at h
    push_neg at h
    rw [Obj.get, if_neg (fun hh : pk = k => h.1 hh.symm)]
    exact ih h.2

theorem Obj.srcGet_eq_get (o : Obj) (k : String) (h : o.NodupKeys) :
    o.srcGet k = o.get k := by
  induction o with
  | nil => rfl
  | cons p rest ih =>
    obtain ⟨pk, pv⟩ := p
    rw [Obj.NodupKeys, Obj.keys_cons, List.nodup_cons] at h
    obtain ⟨hnotin, hrest⟩ := h
    rw [Obj.srcGet, Obj.get, ih hrest]
    by_cases h1 : pk = k
    · subst h1
      rw [Obj.get_eq_none_of_not_mem rest pk hnotin]
    · cases hres : Obj.get rest k <;> simp [h1, hres]

theorem Obj.get_assignObj (t : Obj) (s : Obj) (k : String) :
    (t.assignObj s).get k = (s.srcGet k).elim (t.get k) some := by
  induction s generalizing t with
  | nil => simp [Obj.assignObj, Obj.srcGet]
  | cons p rest ih =>
    obtain ⟨pk, pv⟩ := p
    rw [Obj.assignObj, ih, Obj.srcGet]
    cases hres : Obj.srcGet rest k with
    | some w => simp
    | none =>
      simp only [Option.elim]
      rw [Obj.get_set]
      by_cases h1 : pk = k
      · subst h1; simp
      · simp [h1, fun hh : k = pk => h1 hh.symm]

theorem Obj.countKey_eq_one (o : Obj) (k : String) (hd : o.NodupKeys)
    (hg : (o.get k).isSome) : o.countKey k = 1 := by
  induction o with
  | nil => simp [Obj.get] at hg
  | cons p rest ih =>
    obtain ⟨pk, pv⟩ := p
    rw [Obj.NodupKeys, Obj.keys, List.map_cons, List.nodup_cons] at hd
    obtain ⟨hnotin, hrest⟩ := hd
    by_cases h1 : pk = k
    · subst h1
      rw [Obj.countKey, Obj.keys, List.map_cons, List.count_cons_self]
      rw [List.count_eq_zero_of_not_mem hnotin]
    · rw [Obj.get, if_neg h1] at hg
      have := ih hrest hg
      rw [Obj.countKey, Obj.keys, List.map_cons, List.count_cons_of_ne (fun hh => h1 hh.symm)]
      rw [Obj.countKey, Obj.keys] at this
      exact this

/-- Modelled from the spec: `pruneOptions` (`common/options`) is not in the
source tree.  Per the spec the bindable values are "pruned of undefined/null"
before the merge, so every entry whose value is `undefined` or `null` is
removed and all other entries are kept. -/
def pruneOptions (options : Obj) : Obj :=
  options.filter (fun p => p.2.isDefined)

/-- Modelled from the spec: `_hyphenate` (`common/util`) is not in the source
tree.  Per the spec the re-dispatched DOM event is "named as the hyphenation
of the native event name, e.g. data-bound for dataBound": every capital letter
is replaced by a hyphen followed by its lower-case form. -/
def _hyphenate (s : String) : String :=
  String.mk (s.data.foldr (fun c acc => if c.isUpper then '-' :: c.toLower :: acc else c :: acc) [])

/-- Capitalizes the first character of a string. -/
def capitalizeFirst (s : String) : String :=
  match s.data with
  | [] => ""
  | c :: cs => String.mk (c.toUpper :: cs)

/-- Modelled from the spec: `getBindablePropertyName` (`common/util`) is not
in the source tree.  The source addresses the bindable backing the
`dataSource` option as `viewModel.kDataSource`, so the bindable property name
is the option name prefixed with `k` and capitalized. -/
def getBindablePropertyName (prop : String) : String :=
  "k" ++ capitalizeFirst prop

/-- The host DOM element of an adapter: an identity (DOM events are dispatched
against it) and the list of native event names derived from its attributes. -/
structure DomElement where
  id : Nat
  eventAttributes : List String
  deriving DecidableEq

/-- Modelled from the spec: `getEventsFromAttributes` (`common/util`) is not
in the source tree.  Per the spec it converts the host element's attributes
that match the recognized event-name convention into the list of normalized
native event names; the element model carries that derived list directly. -/
def getEventsFromAttributes (element : DomElement) : List String :=
  element.eventAttributes

theorem pruneOptions_nodupKeys (o : Obj) (h : o.NodupKeys) :
    (pruneOptions o).NodupKeys := by
  have hsub : (pruneOptions o).keys.Sublist o.keys :=
    List.Sublist.map Prod.fst (List.filter_sublist o)
  exact List.Nodup.sublist hsub h

theorem pruneOptions_get (o : Obj) (k : String) (h : o.NodupKeys) :
    (pruneOptions o).get k =
      (o.get k).bind (fun v => if v.isDefined then some v else none) := by
  induction o with
  | nil => rfl
  | cons p rest ih =>
    obtain ⟨pk, pv⟩ := p
    rw [Obj.NodupKeys, Obj.keys_cons, List.nodup_cons] at h
    obtain ⟨hnotin, hrest⟩ := h
    by_cases h1 : pk = k
    · subst h1
      by_cases hv : pv.isDefined
      · simp [pruneOptions, Obj.get, hv, List.filter_cons]
      · have hnone : (pruneOptions rest).get pk = none := by
          apply Obj.get_eq_none_of_not_mem
          intro hmem
          apply hnotin
          exact List.Sublist.mem hmem
            (List.Sublist.map Prod.fst (List.filter_sublist rest))
        simp only [pruneOptions, List.filter_cons, hv, Bool.false_eq_true, if_false]
        rw [pruneOptions] at hnone
        rw [hnone, Obj.get, if_pos rfl]
        simp [hv]
    · have hg : Obj.get (pruneOptions ((pk, pv) :: rest)) k = Obj.get (pruneOptions rest) k := by
        by_cases hv : pv.isDefined
        · simp [pruneOptions, List.filter_cons, hv, Obj.get, h1]
        · simp [pruneOptions, List.filter_cons, hv]
      rw [hg, ih hrest, Obj.get, if_neg h1]

/-- First entry of the store with reference `r`, if any. -/
def heapFind : List (Nat × Obj) → Nat → Option Obj
  | [], _ => none
  | (r', o) :: rest, r => if r' = r then some o else heapFind rest r

/-- Replaces the object stored at reference `r`. -/
def heapPut : List (Nat × Obj) → Nat → Obj → List (Nat × Obj)
  | [], _, _ => []
  | (r', o') :: rest, r, o =>
    if r' = r then (r, o) :: heapPut rest r o else (r', o') :: heapPut rest r o

/-- The mutable object graph: a store of numbered object references.  The
view-model instance, its `options` literal, the freshly merged options object
and the native widget each live here. -/
structure Heap where
  objs : List (Nat × Obj)
  deriving DecidableEq

def Heap.lookup (h : Heap) (r : Nat) : Option Obj := heapFind h.objs r

def Heap.setObj (h : Heap) (r : Nat) (o : Obj) : Heap := ⟨heapPut h.objs r o⟩

/-- A reference strictly larger than every reference in the store. -/
def Heap.freshRef (h : Heap) : Nat :=
  h.objs.foldl (fun a p => max a (p.1 + 1)) 0

/-- Allocates a fresh object (`{}` or an object literal) in the heap and
returns its reference. -/
def Heap.alloc (h : Heap) (o : Obj) : Heap × Nat :=
  (⟨(h.freshRef, o) :: h.objs⟩, h.freshRef)

/-- Property read `heapObject[k]`; JavaScript yields `undefined` both for a
missing property and for a non-object base. -/
def Heap.getField (h : Heap) (r : Nat) (k : String) : JsValue :=
  match h.lookup r with
  | some o => (o.get k).getD .undefined
  | none => .undefined

/-- Property write `heapObject[k] = v` on a live reference. -/
def Heap.setField (h : Heap) (r : Nat) (k : String) (v : JsValue) : Heap :=
  match h.lookup r with
  | some o => h.setObj r (o.set k v)
  | none => h

/-- The own enumerable fields a value contributes as an `Object.assign`
source: an object reference contributes its fields, `undefined`/`null` and
the primitives this layer passes around contribute nothing. -/
def Heap.fieldsOf (h : Heap) (v : JsValue) : Obj :=
  match v with
  | .ref r => (h.lookup r).getD []
  | _ => []

theorem heapFind_foldl_le (l : List (Nat × Obj)) (a : Nat) :
    a ≤ l.foldl (fun a p => max a (p.1 + 1)) a := by
  induction l generalizing a with
  | nil => exact Nat.le_refl a
  | cons p rest ih =>
    exact Nat.le_trans (Nat.le_max_left a (p.1 + 1)) (ih (max a (p.1 + 1)))

theorem foldl_max_mem (l : List (Nat × Obj)) (a : Nat) (p : Nat × Obj) (hp : p ∈ l) :
    p.1 < l.foldl (fun a p => max a (p.1 + 1)) a := by
  induction l generalizing a with
  | nil => cases hp
  | cons q rest ih =>
    rw [List.foldl_cons]
    rcases List.mem_cons.mp hp with hq | hq
    · subst hq
      calc p.1 < p.1 + 1 := Nat.lt_succ_self p.1
        _ ≤ max a (p.1 + 1) := Nat.le_max_right a (p.1 + 1)
        _ ≤ rest.foldl (fun a p => max a (p.1 + 1)) (max a (p.1 + 1)) :=
            heapFind_foldl_le rest (max a (p.1 + 1))
    · exact ih (max a (q.1 + 1)) hq

theorem freshRef_gt (h : Heap) (p : Nat × Obj) (hp : p ∈ h.objs) :
    p.1 < h.freshRef :=
  foldl_max_mem h.objs 0 p hp

theorem heapFind_mem (l : List (Nat × Obj)) (r : Nat) (o : Obj)
    (h : heapFind l r = some o) : (r, o) ∈ l := by
  induction l with
  | nil => cases h
  | cons q rest ih =>
    obtain ⟨qr, qo⟩ := q
    rw [heapFind] at h
    by_cases h1 : qr = r
    · subst h1
      rw [if_pos rfl] at h
      cases h
      exact List.mem_cons_self _ _
    · rw [if_neg h1] at h
      exact List.mem_cons_of_mem _ (ih h)

theorem Heap.lookup_freshRef (h : Heap) : h.lookup h.freshRef = none := by
  cases hl : h.lookup h.freshRef with
  | none => rfl
  | some o =>
    have hmem := heapFind_mem h.objs h.freshRef o hl
    have := freshRef_gt h (h.freshRef, o) hmem
    exact absurd this (Nat.lt_irrefl _)

theorem Heap.ne_freshRef_of_lookup (h : Heap) (r : Nat) (o : Obj)
    (hl : h.lookup r = some o) : r ≠ h.freshRef := by
  intro he
  subst he
  rw [Heap.lookup_freshRef] at hl
  cases hl

theorem heapPut_find_ne (l : List (Nat × Obj)) (r r' : Nat) (o : Obj)
    (hne : r' ≠ r) : heapFind (heapPut l r o) r' = heapFind l r' := by
  induction l with
  | nil => rfl
  | cons q rest ih =>
    obtain ⟨qr, qo⟩ := q
    by_cases h1 : qr = r
    · subst h1
      rw [heapPut, if_pos rfl, heapFind, if_neg (fun hh => hne hh.symm), ih,
        heapFind, if_neg (fun hh : qr = r' => hne hh.symm)]
    · rw [heapPut, if_neg h1, heapFind, heapFind]
      by_cases h2 : qr = r'
      · rw [if_pos h2, if_pos h2]
      · rw [if_neg h2, if_neg h2, ih]

theorem Heap.lookup_setObj_ne (h : Heap) (r r' : Nat) (o : Obj) (hne : r' ≠ r) :
    (h.setObj r o).lookup r' = h.lookup r' :=
  heapPut_find_ne h.objs r r' o hne

theorem heapPut_find_self (l : List (Nat × Obj)) (r : Nat) (o o' : Obj)
    (hl : heapFind l r = some o') : heapFind (heapPut l r o) r = some o := by
  induction l with
  | nil => cases hl
  | cons q rest ih =>
    obtain ⟨qr, qo⟩ := q
    by_cases h1 : qr = r
    · subst h1
      rw [heapPut, if_pos rfl, heapFind, if_pos rfl]
    · rw [heapFind, if_neg h1] at hl
      rw [heapPut, if_neg h1, heapFind, if_neg h1]
      exact ih hl

theorem Heap.lookup_setObj_self (h : Heap) (r : Nat) (o o' : Obj)
    (hl : h.lookup r = some o') : (h.setObj r o).lookup r = some o :=
  heapPut_find_self h.objs r o o' hl

theorem Heap.lookup_alloc_ne (h : Heap) (o : Obj) (r : Nat) (hne : r ≠ h.freshRef) :
    (h.alloc o).1.lookup r = h.lookup r := by
  rw [Heap.alloc, Heap.lookup, heapFind, if_neg (fun hh => hne hh.symm)]
  rfl

theorem Heap.lookup_alloc_self (h : Heap) (o : Obj) :
    (h.alloc o).1.lookup (h.alloc o).2 = some o := by
  rw [Heap.alloc, Heap.lookup, heapFind, if_pos rfl]

theorem Heap.lookup_setField_ne (h : Heap) (r r' : Nat) (k : String) (v : JsValue)
    (hne : r' ≠ r) : (h.setField r k v).lookup r' = h.lookup r' := by
  rw [Heap.setField]
  cases h.lookup r with
  | none => rfl
  | some o => exact Heap.lookup_setObj_ne h r r' (o.set k v) hne

theorem Heap.lookup_setField_self (h : Heap) (r : Nat) (k : String) (v : JsValue)
    (o : Obj) (hl : h.lookup r = some o) :
    (h.setField r k v).lookup r = some (o.set k v) := by
  rw [Heap.setField, hl]
  exact Heap.lookup_setObj_self h r (o.set k v) o hl

/-- The shared helper (`common/widget-base`, class `WidgetBase`) after
`control(controlName)` and `linkViewModel(viewModel)` have run: it carries the
selected control's name, the control's default options object
(`ctor.widget.prototype.options`) and event vocabulary
(`ctor.widget.prototype.events`), and the reference of the linked view model.
The task queue it injects is modelled separately as `EventSystem`. -/
structure WidgetBase where
  controlName : String
  kendoOptions : Obj
  kendoEvents : List String
  viewModel : Nat

/-- The loop body of `getOptionsFromBindables`:
`for (let prop of Object.keys(props)) options[prop] =
this.viewModel[getBindablePropertyName(prop)];`. -/
def bindablesGo (h : Heap) (vmRef : Nat) : List String → Obj → Obj
  | [], acc => acc
  | prop :: rest, acc =>
    bindablesGo h vmRef rest (acc.set prop (h.getField vmRef (getBindablePropertyName prop)))

/-- `WidgetBase.getOptionsFromBindables`: reads every bindable generated for a
key of the control's default options into a single options object, then
overrides `dataSource` with `viewModel.kDataSource` when that is truthy. -/
def WidgetBase.getOptionsFromBindables (h : Heap) (wb : WidgetBase) : Obj :=
  let options := bindablesGo h wb.viewModel wb.kendoOptions.keys []
  let ds := h.getField wb.viewModel "kDataSource"
  if ds.truthy then options.set "dataSource" ds else options

/-- The `events.forEach` loop of `getEventOptions`: each event derived from
the element's attributes must belong to the control's event vocabulary, else
the loop throws; a valid event gets a proxy handler stored under its name. -/
def eventOptionsGo (wb : WidgetBase) (element : DomElement) :
    List String → Obj → Except String Obj
  | [], acc => .ok acc
  | event :: rest, acc =>
    if event ∈ wb.kendoEvents then
      eventOptionsGo wb element rest (acc.set event (JsValue.handler element.id event))
    else
      .error (event ++ " is not an event on the " ++ wb.controlName ++ " control")

/-- `WidgetBase.getEventOptions`: converts the element's event attributes
into proxy-handler entries, throwing on any event the control does not
declare. -/
def WidgetBase.getEventOptions (wb : WidgetBase) (element : DomElement) :
    Except String Obj :=
  eventOptionsGo wb element (getEventsFromAttributes element) []

/-- `WidgetBase._getOptions`: collects the bindable values and the event
handlers and merges
`Object.assign({}, this.viewModel.options, pruneOptions(options),
eventOptions)` into a freshly allocated object, returning its reference. -/
def WidgetBase._getOptions (h : Heap) (wb : WidgetBase) (element : DomElement) :
    Except String (Heap × Nat) := do
  let options := wb.getOptionsFromBindables h
  let eventOptions ← wb.getEventOptions element
  let lit := h.fieldsOf (h.getField wb.viewModel "options")
  let merged := ((Obj.assignObj [] lit).assignObj (pruneOptions options)).assignObj eventOptions
  pure (h.alloc merged)

/-- The argument object of `createWidget`.  `element`/`parentCtx` model
`options.element` and `options.parentCtx` (`none` and a falsy value stand for
an unset field); `beforeInit` models the `beforeInitialize` hook, which may
mutate the freshly merged options object; the `afterInitialize` hook takes no
arguments and cannot touch the modelled state, so it has no field here. -/
structure CreateWidgetOptions where
  element : Option DomElement
  parentCtx : JsValue
  beforeInit : Option (Obj → Obj) := none

/-- `WidgetBase.createWidget`: validates its argument object, builds the
merged options, runs the `beforeInitialize` hook, attaches the
`_$parent: [parentCtx]` back-reference to the merged options, instantiates
the native widget (an opaque fresh object), sets `widget._$parent`, and
returns the widget's reference. -/
def WidgetBase.createWidget (h : Heap) (wb : WidgetBase)
    (opts : Option CreateWidgetOptions) : Except String (Heap × Nat) :=
  match opts with
  | none => .error "the createWidget() function needs to be called with an object"
  | some options =>
    match options.element with
    | none => .error "element is not set"
    | some element =>
      if options.parentCtx.truthy then
        match WidgetBase._getOptions h wb element with
        | .error msg => .error msg
        | .ok (h1, allRef) =>
          let h2 :=
            match options.beforeInit, h1.lookup allRef with
            | some f, some o => h1.setObj allRef (f o)
            | _, _ => h1
          let h3 := h2.setField allRef "_$parent" (JsValue.arrOne options.parentCtx)
          let pair := h3.alloc []
          let h5 := pair.1.setField pair.2 "_$parent" options.parentCtx
          .ok (h5, pair.2)
      else .error "parentCtx is not set"

/-- `WidgetBase.destroy`: `widget.destroy()` with no guard.  The result lists
the native `destroy()` invocations; calling it on an unset handle is the
JavaScript type error of dereferencing `undefined`. -/
def WidgetBase.destroy (widget : Option Nat) : Except String (List Nat) :=
  match widget with
  | some w => .ok [w]
  | none => .error "TypeError: cannot call destroy() of undefined"

/-- A DOM event re-dispatched on a host element by `fireKendoEvent`. -/
structure DomEvent where
  elemId : Nat
  name : String
  detail : JsValue
  deriving DecidableEq

/-- A pending micro-task queued by an event proxy: it will re-dispatch the
(hyphenated) native event on the host element when the task queue flushes. -/
structure PendingTask where
  elemId : Nat
  event : String
  arg : JsValue
  deriving DecidableEq

/-- Modelled from the spec: the `aurelia-task-queue` micro-task queue and
`fireKendoEvent` (`common/events`) are not in the source tree.  The system
state is the pending micro-task queue plus the DOM events dispatched so far;
the binding system's update cycle completes before queued micro-tasks run. -/
structure EventSystem where
  queue : List PendingTask
  fired : List DomEvent
  deriving DecidableEq

/-- Modelled from the spec: `fireKendoEvent(element, name, e)` raises one DOM
event with the given name on the host element. -/
def fireKendoEvent (fired : List DomEvent) (elemId : Nat) (name : String)
    (e : JsValue) : List DomEvent :=
  fired ++ [⟨elemId, name, e⟩]

/-- `taskQueue.queueMicroTask(...)`: appends one pending task; nothing is
dispatched synchronously. -/
def queueMicroTask (sys : EventSystem) (t : PendingTask) : EventSystem :=
  { sys with queue := sys.queue ++ [t] }

/-- The native widget invoking a value stored in its options: the proxy
handler built by `getEventOptions` queues a micro-task that will re-dispatch
the event (`this.taskQueue.queueMicroTask(() =>
fireKendoEvent(element, _hyphenate(event), e))`); a non-handler value does
nothing observable here. -/
def invokeHandler (sys : EventSystem) (v : JsValue) (e : JsValue) : EventSystem :=
  match v with
  | .handler elemId event => queueMicroTask sys ⟨elemId, event, e⟩
  | _ => sys

/-- The task queue flushing its oldest pending task after the current binding
update cycle: the deferred `fireKendoEvent` call runs, dispatching the
hyphenated event. -/
def runNextTask (sys : EventSystem) : EventSystem :=
  match sys.queue with
  | [] => sys
  | t :: rest => ⟨rest, fireKendoEvent sys.fired t.elemId (_hyphenate t.event) t.arg⟩

/-- A widget update or recreation triggered by a bindable change. -/
inductive UpdateAction where
  | updateOrRecreate (widget : Option Nat) (property : String) (value : JsValue)
  | enable (widget : Nat) (value : JsValue)
  deriving DecidableEq

/-- Modelled from the spec: `handlePropertyChanged` is not in the source
tree.  Per the spec a changed option is "pushed into the live widget (if
supported)" or the widget is rebuilt — in either case a single update-or-
recreation action per invocation. -/
def WidgetBase.handlePropertyChanged (widget : Option Nat) (property : String)
    (newValue oldValue : JsValue) : List UpdateAction :=
  [UpdateAction.updateOrRecreate widget property newValue]

theorem bindablesGo_get (h : Heap) (vmRef : Nat) (l : List String) (acc : Obj)
    (k : String) :
    (bindablesGo h vmRef l acc).get k =
      if k ∈ l then some (h.getField vmRef (getBindablePropertyName k))
      else acc.get k := by
  induction l generalizing acc with
  | nil => simp [bindablesGo]
  | cons prop rest ih =>
    rw [bindablesGo, ih]
    by_cases hmem : k ∈ rest
    · simp [hmem]
    · by_cases hk : k = prop
      · subst hk
        simp [hmem, Obj.get_set]
      · have hnc : k ∉ prop :: rest := by simp [hk, hmem]
        rw [if_neg hmem, if_neg hnc, Obj.get_set, if_neg (fun hh : prop = k => hk hh.symm)]

theorem bindablesGo_nodupKeys (h : Heap) (vmRef : Nat) (l : List String)
    (acc : Obj) (hacc : acc.NodupKeys) : (bindablesGo h vmRef l acc).NodupKeys := by
  induction l generalizing acc with
  | nil => exact hacc
  | cons prop rest ih =>
    rw [bindablesGo]
    exact ih _ (Obj.nodupKeys_set _ _ _ hacc)

theorem getOptionsFromBindables_nodupKeys (h : Heap) (wb : WidgetBase) :
    (wb.getOptionsFromBindables h).NodupKeys := by
  rw [WidgetBase.getOptionsFromBindables]
  have hbase := bindablesGo_nodupKeys h wb.viewModel wb.kendoOptions.keys [] (by
    rw [Obj.NodupKeys]; exact List.nodup_nil)
  by_cases hds : (h.getField wb.viewModel "kDataSource").truthy
  · simp only [hds, if_true]
    exact Obj.nodupKeys_set _ _ _ hbase
  · simp only [hds, Bool.false_eq_true, if_false]
    exact hbase

theorem getOptionsFromBindables_get (h : Heap) (wb : WidgetBase) (k : String) :
    (wb.getOptionsFromBindables h).get k =
      if k = "dataSource" ∧ (h.getField wb.viewModel "kDataSource").truthy = true
      then some (h.getField wb.viewModel "kDataSource")
      else if k ∈ wb.kendoOptions.keys
      then some (h.getField wb.viewModel (getBindablePropertyName k))
      else none := by
  rw [WidgetBase.getOptionsFromBindables]
  by_cases hds : (h.getField wb.viewModel "kDataSource").truthy
  · simp only [hds, if_true, and_true]
    by_cases hk : k = "dataSource"
    · subst hk
      rw [Obj.get_set, if_pos rfl, if_pos rfl]
    · rw [Obj.get_set, if_neg (fun hh => hk hh.symm), if_neg hk, bindablesGo_get]
      simp [Obj.get]
  · simp only [hds, Bool.false_eq_true, if_false, and_false]
    rw [bindablesGo_get]
    simp [Obj.get]

theorem eventOptionsGo_ok_get (wb : WidgetBase) (element : DomElement)
    (l : List String) (acc o : Obj) (k : String)
    (hok : eventOptionsGo wb element l acc = .ok o) :
    o.get k = if k ∈ l then some (JsValue.handler element.id k) else acc.get k := by
  induction l generalizing acc with
  | nil =>
    rw [eventOptionsGo] at hok
    cases hok
    simp
  | cons ev rest ih =>
    rw [eventOptionsGo] at hok
    by_cases hev : ev ∈ wb.kendoEvents
    · rw [if_pos hev] at hok
      rw [ih _ hok]
      by_cases hmem : k ∈ rest
      · simp [hmem]
      · by_cases hk : k = ev
        · subst hk
          simp [hmem, Obj.get_set]
        · have hnc : k ∉ ev :: rest := by simp [hk, hmem]
          rw [if_neg hmem, if_neg hnc, Obj.get_set, if_neg (fun hh : ev = k => hk hh.symm)]
    · rw [if_neg hev] at hok
      cases hok

theorem eventOptionsGo_ok_nodupKeys (wb : WidgetBase) (element : DomElement)
    (l : List String) (acc o : Obj) (hacc : acc.NodupKeys)
    (hok : eventOptionsGo wb element l acc = .ok o) : o.NodupKeys := by
  induction l generalizing acc with
  | nil =>
    rw [eventOptionsGo] at hok
    cases hok
    exact hacc
  | cons ev rest ih =>
    rw [eventOptionsGo] at hok
    by_cases hev : ev ∈ wb.kendoEvents
    · rw [if_pos hev] at hok
      exact ih _ (Obj.nodupKeys_set _ _ _ hacc) hok
    · rw [if_neg hev] at hok
      cases hok

theorem eventOptionsGo_ok_of_all_valid (wb : WidgetBase) (element : DomElement)
    (l : List String) (acc : Obj) (hall : ∀ ev ∈ l, ev ∈ wb.kendoEvents) :
    ∃ o, eventOptionsGo wb element l acc = .ok o := by
  induction l generalizing acc with
  | nil => exact ⟨acc, rfl⟩
  | cons ev rest ih =>
    rw [eventOptionsGo, if_pos (hall ev (List.mem_cons_self ev rest))]
    exact ih _ (fun e he => hall e (List.mem_cons_of_mem ev he))

theorem eventOptionsGo_error_of_invalid (wb : WidgetBase) (element : DomElement)
    (l : List String) (acc : Obj) (ev : String) (hmem : ev ∈ l)
    (hbad : ev ∉ wb.kendoEvents) :
    ∃ msg, eventOptionsGo wb element l acc = .error msg := by
  induction l generalizing acc with
  | nil => cases hmem
  | cons e rest ih =>
    rw [eventOptionsGo]
    by_cases he : e ∈ wb.kendoEvents
    · rw [if_pos he]
      rcases List.mem_cons.mp hmem with hq | hq
      · subst hq
        exact absurd he hbad
      · exact ih _ hq
    · rw [if_neg he]
      exact ⟨_, rfl⟩

theorem getEventOptions_ok_valid (wb : WidgetBase) (element : DomElement)
    (o : Obj) (hok : wb.getEventOptions element = .ok o) :
    ∀ k, o.get k =
      if k ∈ getEventsFromAttributes element
      then some (JsValue.handler element.id k) else none := by
  intro k
  rw [eventOptionsGo_ok_get wb element _ [] o k hok]
  simp [Obj.get]

/-- The precise contents of the object `_getOptions` allocates: the merge of
the view model's explicit options literal, the pruned bindables, and the
event-handler entries, in that order. -/
theorem getOptions_ok_characterization (h : Heap) (wb : WidgetBase)
    (element : DomElement) (h' : Heap) (r : Nat)
    (hrun : wb._getOptions h element = .ok (h', r)) :
    ∃ evt, wb.getEventOptions element = .ok evt ∧
      r = h.freshRef ∧
      h' = (h.alloc (((Obj.assignObj []
          (h.fieldsOf (h.getField wb.viewModel "options"))).assignObj
          (pruneOptions (wb.getOptionsFromBindables h))).assignObj evt)).1 ∧
      h'.lookup r = some (((Obj.assignObj []
          (h.fieldsOf (h.getField wb.viewModel "options"))).assignObj
          (pruneOptions (wb.getOptionsFromBindables h))).assignObj evt) := by
  rw [WidgetBase._getOptions] at hrun
  cases hevt : wb.getEventOptions element with
  | error msg =>
    rw [hevt] at hrun
    cases hrun
  | ok evt =>
    rw [hevt] at hrun
    simp only [bind, Except.bind, pure, Except.pure] at hrun
    refine ⟨evt, rfl, ?_, ?_, ?_⟩
    · cases hrun; rfl
    · cases hrun; rfl
    · cases hrun
      exact Heap.lookup_alloc_self h _

/-- A call an adapter makes into the shared helper's construction path. -/
inductive BaseCall where
  | create
  deriving DecidableEq

/-- The `k-treemap` custom element's view model (`TreeMap`): host element,
`$parent` binding context (set by `bind`), and the native widget handle
`kWidget` (set by `recreate`). -/
structure TreeMap where
  element : DomElement
  parent : JsValue := .undefined
  kWidget : Option Nat := none

/-- `TreeMap.prototype.bind`: stores the binding context in `$parent`. -/
def TreeMap.bind (vm : TreeMap) (ctx : JsValue) : TreeMap :=
  { vm with parent := ctx }

/-- `TreeMap.prototype.recreate`: one call to `widgetBase.createWidget` with
the host element and `$parent`; on success the handle lands in `kWidget`.
The second component records the construction calls made. -/
def TreeMap.recreate (h : Heap) (wb : WidgetBase) (vm : TreeMap) :
    Except String (Heap × TreeMap) × List BaseCall :=
  (match wb.createWidget h (some { element := some vm.element, parentCtx := vm.parent }) with
   | .ok (h', w) => .ok (h', { vm with kWidget := some w })
   | .error e => .error e,
   [BaseCall.create])

/-- `TreeMap.prototype.attached`: `this.recreate()`. -/
def TreeMap.attached (h : Heap) (wb : WidgetBase) (vm : TreeMap) :
    Except String (Heap × TreeMap) × List BaseCall :=
  TreeMap.recreate h wb vm

/-- `TreeMap.prototype.detached`: `this.widgetBase.destroy(this.kWidget)`. -/
def TreeMap.detached (vm : TreeMap) : Except String (List Nat) :=
  WidgetBase.destroy vm.kWidget

/-- The `TreeMap` class declares neither a `propertyChanged` hook nor any
per-property change callback (its whole body is the constructor, `bind`,
`attached`, `recreate` and `detached`), so the host framework's
change notification for a bound property invokes nothing: the response to a
bindable change is the empty action list. -/
def TreeMap.propertyChangeResponse (vm : TreeMap) (property : String)
    (newValue : JsValue) : List UpdateAction :=
  []

/-- The `tooltip` custom attribute's view model (`Tooltip`). -/
structure Tooltip where
  element : DomElement
  parent : JsValue := .undefined
  kWidget : Option Nat := none

/-- `Tooltip.bind`: stores the binding context in `$parent`. -/
def Tooltip.bind (vm : Tooltip) (ctx : JsValue) : Tooltip :=
  { vm with parent := ctx }

/-- `Tooltip.recreate`: one call to `widgetBase.createWidget`. -/
def Tooltip.recreate (h : Heap) (wb : WidgetBase) (vm : Tooltip) :
    Except String (Heap × Tooltip) × List BaseCall :=
  (match wb.createWidget h (some { element := some vm.element, parentCtx := vm.parent }) with
   | .ok (h', w) => .ok (h', { vm with kWidget := some w })
   | .error e => .error e,
   [BaseCall.create])

/-- `Tooltip.attached`: `this.recreate()`. -/
def Tooltip.attached (h : Heap) (wb : WidgetBase) (vm : Tooltip) :
    Except String (Heap × Tooltip) × List BaseCall :=
  Tooltip.recreate h wb vm

/-- `Tooltip.detached`: `this.widgetBase.destroy(this.kWidget)` — the unset
handle is passed straight through, unguarded. -/
def Tooltip.detached (vm : Tooltip) : Except String (List Nat) :=
  WidgetBase.destroy vm.kWidget

/-- The `k-calendar` custom element's view model (`Calendar`,
`dist/commonjs/calendar/calendar.js`). -/
structure Calendar where
  element : DomElement
  parent : JsValue := .undefined
  kWidget : Option Nat := none

/-- `Calendar.prototype.bind`: stores the binding context in `$parent`. -/
def Calendar.bind (vm : Calendar) (ctx : JsValue) : Calendar :=
  { vm with parent := ctx }

/-- `Calendar.prototype.recreate`: one call to `widgetBase.createWidget`. -/
def Calendar.recreate (h : Heap) (wb : WidgetBase) (vm : Calendar) :
    Except String (Heap × Calendar) × List BaseCall :=
  (match wb.createWidget h (some { element := some vm.element, parentCtx := vm.parent }) with
   | .ok (h', w) => .ok (h', { vm with kWidget := some w })
   | .error e => .error e,
   [BaseCall.create])

/-- `Calendar.prototype.attached`: `this.recreate()`. -/
def Calendar.attached (h : Heap) (wb : WidgetBase) (vm : Calendar) :
    Except String (Heap × Calendar) × List BaseCall :=
  Calendar.recreate h wb vm

/-- `Calendar.prototype.propertyChanged`: forwards the change to
`widgetBase.handlePropertyChanged(this.kWidget, property, newValue,
oldValue)`. -/
def Calendar.propertyChanged (vm : Calendar) (property : String)
    (newValue oldValue : JsValue) : List UpdateAction :=
  WidgetBase.handlePropertyChanged vm.kWidget property newValue oldValue

/-- `Calendar.prototype.detached`: `this.widgetBase.destroy(this.kWidget)`. -/
def Calendar.detached (vm : Calendar) : Except String (List Nat) :=
  WidgetBase.destroy vm.kWidget

/-- The toolbar element's view model (`AuToolbar`): its widget handle
`_component` is not set by any of its own lifecycle methods. -/
structure AuToolbar where
  element : DomElement
  options : Obj := []
  _component : Option Nat := none

/-- `AuToolbar.prototype.attached` is an empty function: it neither calls
`createWidget` nor touches the state. -/
def AuToolbar.attached (vm : AuToolbar) : AuToolbar × List BaseCall :=
  (vm, [])

/-- `AuToolbar.prototype.detached`: `if (this._component)
this._component.destroy();` — guarded, so without a component it destroys
nothing and raises nothing. -/
def AuToolbar.detached (vm : AuToolbar) : Except String (List Nat) :=
  match vm._component with
  | some c => .ok [c]
  | none => .ok []

/-- `AuToolbar.prototype.getOptions`:
`Object.assign({}, this.options, pruneOptions({}))`. -/
def AuToolbar.getOptions (vm : AuToolbar) : Obj :=
  (Obj.assignObj [] vm.options).assignObj (pruneOptions [])

/-- `AuToolbar.prototype.enableChanged`: `if (this._component)
this._component.enable(newValue);` — one enable call when a component is
live, nothing otherwise. -/
def AuToolbar.enableChanged (vm : AuToolbar) (newValue : JsValue) :
    List UpdateAction :=
  match vm._component with
  | some c => [UpdateAction.enable c newValue]
  | none => []

theorem JsValue.isDefined_of_truthy (v : JsValue) (h : v.truthy = true) :
    v.isDefined = true := by
  cases v <;> simp_all [JsValue.truthy, JsValue.isDefined]

theorem jsOption_elim_id (o : Option JsValue) : o.elim none some = o := by
  cases o <;> rfl

/-- For any key, the object `_getOptions` builds resolves to the event-handler
entry first, then the pruned bindable value, then the explicit options
literal's (last) entry — the `Object.assign` order of `_getOptions`. -/
theorem getOptions_merged_get (h : Heap) (wb : WidgetBase) (element : DomElement)
    (h' : Heap) (r : Nat) (M : Obj) (evt : Obj) (k : String)
    (hrun : wb._getOptions h element = .ok (h', r))
    (hM : h'.lookup r = some M)
    (hevt : wb.getEventOptions element = .ok evt) :
    M.get k = (evt.get k).elim
      (((pruneOptions (wb.getOptionsFromBindables h)).get k).elim
        ((h.fieldsOf (h.getField wb.viewModel "options")).srcGet k) some) some := by
  obtain ⟨evt', hevt', hr, hh', hlook⟩ :=
    getOptions_ok_characterization h wb element h' r hrun
  rw [hevt] at hevt'
  cases hevt'
  rw [hM] at hlook
  cases hlook
  rw [Obj.get_assignObj, Obj.get_assignObj, Obj.get_assignObj]
  have hevtnodup : evt.NodupKeys :=
    eventOptionsGo_ok_nodupKeys wb element _ [] evt
      (by rw [Obj.NodupKeys]; exact List.nodup_nil) hevt
  have hprnodup : (pruneOptions (wb.getOptionsFromBindables h)).NodupKeys :=
    pruneOptions_nodupKeys _ (getOptionsFromBindables_nodupKeys h wb)
  rw [Obj.srcGet_eq_get _ _ hevtnodup, Obj.srcGet_eq_get _ _ hprnodup]
  have hnil : Obj.get [] k = none := rfl
  rw [hnil, jsOption_elim_id]

/-- C1 (amended): the merged options object `_getOptions` builds contains a
key for every bound property whose value is defined; the bindable values are
pruned of undefined/null before the merge, so a bound property whose value is
undefined or null contributes no key — the merged object lacks that key
unless the explicit options literal or an event attribute independently
supplies it. -/
theorem claim_C1_theorem (h : Heap) (wb : WidgetBase) (element : DomElement)
    (h' : Heap) (r : Nat) (M : Obj) (prop : String)
    (hrun : wb._getOptions h element = .ok (h', r))
    (hM : h'.lookup r = some M)
    (hprop : prop ∈ wb.kendoOptions.keys) :
    ((h.getField wb.viewModel (getBindablePropertyName prop)).isDefined = true →
      (M.get prop).isSome = true) ∧
    ((h.getField wb.viewModel (getBindablePropertyName prop)).isDefined = false →
      (h.fieldsOf (h.getField wb.viewModel "options")).srcGet prop = none →
      prop ∉ element.eventAttributes →
      M.get prop = none) := by
  obtain ⟨evt, hevt, _, _, _⟩ := getOptions_ok_characterization h wb element h' r hrun
  have hmerged := getOptions_merged_get h wb element h' r M evt prop hrun hM hevt
  have hbind := getOptionsFromBindables_get h wb prop
  have hprune := pruneOptions_get (wb.getOptionsFromBindables h) prop
    (getOptionsFromBindables_nodupKeys h wb)
  constructor
  · intro hdef
    have hpr : ((pruneOptions (wb.getOptionsFromBindables h)).get prop).isSome = true := by
      rw [hprune, hbind]
      by_cases hds : prop = "dataSource" ∧
          (h.getField wb.viewModel "kDataSource").truthy = true
      · rw [if_pos hds]
        simp [JsValue.isDefined_of_truthy _ hds.2]
      · rw [if_neg hds, if_pos hprop]
        simp [hdef]
    rw [hmerged]
    cases hevtv : evt.get prop with
    | some v => rfl
    | none =>
      cases hprv : (pruneOptions (wb.getOptionsFromBindables h)).get prop with
      | some v => rfl
      | none => rw [hprv] at hpr; cases hpr
  · intro hdef hlit hnev
    have hpr : (pruneOptions (wb.getOptionsFromBindables h)).get prop = none := by
      rw [hprune, hbind]
      by_cases hds : prop = "dataSource" ∧
          (h.getField wb.viewModel "kDataSource").truthy = true
      · exfalso
        obtain ⟨hds1, hds2⟩ := hds
        subst hds1
        have hname : getBindablePropertyName "dataSource" = "kDataSource" := by decide
        rw [hname] at hdef
        rw [JsValue.isDefined_of_truthy _ hds2] at hdef
        cases hdef
      · rw [if_neg hds, if_pos hprop]
        simp [hdef]
    have hev : evt.get prop = none := by
      rw [getEventOptions_ok_valid wb element evt hevt prop]
      rw [getEventsFromAttributes] at *
      simp [hnev]
    rw [hmerged, hev, hpr]
    exact hlit

/-- Heap component of a successful `_getOptions`/`createWidget` run. -/
def runHeap (x : Except String (Heap × Nat)) : Heap :=
  match x with
  | .ok p => p.1
  | .error _ => ⟨[]⟩

/-- Reference component of a successful run. -/
def runRef (x : Except String (Heap × Nat)) : Nat :=
  match x with
  | .ok p => p.2
  | .error _ => 0

/-- The object stored at a successful run's returned reference. -/
def runObj (x : Except String (Heap × Nat)) : Obj :=
  match x with
  | .ok p => (p.1.lookup p.2).getD []
  | .error _ => []

/-- Concrete adapter state for the C1 witness: the `title` bindable holds the
defined value `"Sales"`, the options literal is empty. -/
def w1Heap : Heap := ⟨[(0, [("options", .ref 1), ("kTitle", .str "Sales")]), (1, [])]⟩

def w1WB : WidgetBase := ⟨"kendoChart", [("title", .null)], ["dataBound"], 0⟩

def w1El : DomElement := ⟨7, []⟩

def w1Run : Except String (Heap × Nat) := WidgetBase._getOptions w1Heap w1WB w1El

/-- C1 witness: on a concrete adapter whose `title` bindable is defined, the
merged options object contains the `title` key. -/
theorem claim_C1_witness :
    (Heap.getField w1Heap w1WB.viewModel (getBindablePropertyName "title")).isDefined = true ∧
    ((runObj w1Run).get "title").isSome = true := by
  refine ⟨by decide, ?_⟩
  exact (claim_C1_theorem w1Heap w1WB w1El (runHeap w1Run) (runRef w1Run)
    (runObj w1Run) "title" rfl rfl (by decide)).1 (by decide)

/-- Concrete adapter state falsifying C1 as stated: the `title` bindable is
undefined, yet the explicit options literal supplies `title: 5`. -/
def c1Heap : Heap := ⟨[(0, [("options", .ref 1)]), (1, [("title", .num 5)])]⟩

def c1WB : WidgetBase := ⟨"kendoChart", [("title", .null)], [], 0⟩

def c1El : DomElement := ⟨3, []⟩

def c1Run : Except String (Heap × Nat) := WidgetBase._getOptions c1Heap c1WB c1El

/-- C1 counterexample: `title` is a bound property whose value is undefined,
yet the merged options object passed on towards the constructor does contain
the key `title` (with the options literal's value), contradicting the claim
that no key exists for any bound property whose value is undefined/null. -/
theorem claim_C1_counterexample :
    "title" ∈ c1WB.kendoOptions.keys ∧
    (Heap.getField c1Heap c1WB.viewModel (getBindablePropertyName "title")).isDefined = false ∧
    (runObj c1Run).get "title" = some (JsValue.num 5) := by
  decide

/-- C2: in the merge `_getOptions` performs, the later-merged source wins for
every shared key.  A bound property (key of the control's default options)
with a defined value and no event attribute of the same name resolves to the
pruned bindable value — regardless of what the explicit options literal binds
to that key, so the literal never overrides a defined bindable; and a key
registered as an event handler resolves to the handler entry, overriding
both the literal and the bindables. -/
theorem claim_C2_theorem (h : Heap) (wb : WidgetBase) (element : DomElement)
    (h' : Heap) (r : Nat) (M : Obj) (prop : String)
    (hrun : wb._getOptions h element = .ok (h', r))
    (hM : h'.lookup r = some M) :
    (prop ∈ wb.kendoOptions.keys →
      (h.getField wb.viewModel (getBindablePropertyName prop)).isDefined = true →
      prop ∉ element.eventAttributes →
      M.get prop = some (h.getField wb.viewModel (getBindablePropertyName prop))) ∧
    (prop ∈ element.eventAttributes →
      M.get prop = some (JsValue.handler element.id prop)) := by
  obtain ⟨evt, hevt, _, _, _⟩ := getOptions_ok_characterization h wb element h' r hrun
  have hmerged := getOptions_merged_get h wb element h' r M evt prop hrun hM hevt
  have hbind := getOptionsFromBindables_get h wb prop
  have hprune := pruneOptions_get (wb.getOptionsFromBindables h) prop
    (getOptionsFromBindables_nodupKeys h wb)
  constructor
  · intro hprop hdef hnev
    have hpr : (pruneOptions (wb.getOptionsFromBindables h)).get prop =
        some (h.getField wb.viewModel (getBindablePropertyName prop)) := by
      rw [hprune, hbind]
      by_cases hds : prop = "dataSource" ∧
          (h.getField wb.viewModel "kDataSource").truthy = true
      · obtain ⟨hds1, hds2⟩ := hds
        subst hds1
        have hname : getBindablePropertyName "dataSource" = "kDataSource" := by decide
        rw [if_pos ⟨rfl, hds2⟩, hname]
        simp [JsValue.isDefined_of_truthy _ hds2]
      · rw [if_neg hds, if_pos hprop]
        simp [hdef]
    have hev : evt.get prop = none := by
      rw [getEventOptions_ok_valid wb element evt hevt prop, getEventsFromAttributes]
      simp [hnev]
    rw [hmerged, hev, hpr]
    rfl
  · intro hevmem
    have hev : evt.get prop = some (JsValue.handler element.id prop) := by
      rw [getEventOptions_ok_valid wb element evt hevt prop, getEventsFromAttributes]
      simp [hevmem]
    rw [hmerged, hev]
    rfl

/-- Concrete adapter state for the C2 witness: the options literal and the
`title` bindable both define `title` with defined values, and the element
subscribes to `dataBound`. -/
def w2Heap : Heap :=
  ⟨[(0, [("options", .ref 1), ("kTitle", .str "Sales")]),
    (1, [("title", .str "FromLiteral"), ("dataBound", .num 9)])]⟩

def w2WB : WidgetBase := ⟨"kendoChart", [("title", .null)], ["dataBound"], 0⟩

def w2El : DomElement := ⟨7, ["dataBound"]⟩

def w2Run : Except String (Heap × Nat) := WidgetBase._getOptions w2Heap w2WB w2El

/-- C2 witness: on a concrete adapter where the literal binds
`title: "FromLiteral"` while the bindable holds `"Sales"`, the merged object
maps `title` to the bindable's value, and maps `dataBound` to the handler
entry even though the literal also defines `dataBound`. -/
theorem claim_C2_witness :
    (runObj w2Run).get "title" = some (JsValue.str "Sales") ∧
    (runObj w2Run).get "dataBound" = some (JsValue.handler 7 "dataBound") := by
  constructor
  · exact (claim_C2_theorem w2Heap w2WB w2El (runHeap w2Run) (runRef w2Run)
      (runObj w2Run) "title" rfl rfl).1 (by decide) (by decide) (by decide)
  · exact (claim_C2_theorem w2Heap w2WB w2El (runHeap w2Run) (runRef w2Run)
      (runObj w2Run) "dataBound" rfl rfl).2 (by decide)

/-- C3: for every event name derived from the host element's attributes —
when every derived event belongs to the control's event vocabulary,
`getEventOptions` returns an options object holding exactly one proxy-handler
entry for the event; when the event is absent from the vocabulary,
`getEventOptions` throws and returns no handler set to the caller. -/
theorem claim_C3_theorem (wb : WidgetBase) (element : DomElement) (ev : String)
    (hmem : ev ∈ getEventsFromAttributes element) :
    ((∀ e ∈ getEventsFromAttributes element, e ∈ wb.kendoEvents) →
      ∃ o, wb.getEventOptions element = .ok o ∧
        o.get ev = some (JsValue.handler element.id ev) ∧
        o.countKey ev = 1) ∧
    (ev ∉ wb.kendoEvents →
      ∃ msg, wb.getEventOptions element = .error msg) := by
  constructor
  · intro hall
    obtain ⟨o, hok⟩ :=
      eventOptionsGo_ok_of_all_valid wb element (getEventsFromAttributes element) [] hall
    refine ⟨o, hok, ?_, ?_⟩
    · rw [getEventOptions_ok_valid wb element o hok ev, if_pos hmem]
    · apply Obj.countKey_eq_one
      · exact eventOptionsGo_ok_nodupKeys wb element _ [] o
          (by rw [Obj.NodupKeys]; exact List.nodup_nil) hok
      · rw [getEventOptions_ok_valid wb element o hok ev, if_pos hmem]
        rfl
  · intro hbad
    exact eventOptionsGo_error_of_invalid wb element _ [] ev hmem hbad

/-- C3 witness: a concrete control whose vocabulary is `[dataBound]` —
the attribute-derived event `dataBound` yields exactly one handler entry,
while a control lacking the event makes the same derivation throw. -/
theorem claim_C3_witness :
    (∃ o, WidgetBase.getEventOptions ⟨"kendoChart", [], ["dataBound"], 0⟩ ⟨7, ["dataBound"]⟩ = .ok o ∧
      o.get "dataBound" = some (JsValue.handler 7 "dataBound") ∧
      o.countKey "dataBound" = 1) ∧
    (∃ msg, WidgetBase.getEventOptions ⟨"kendoChart", [], [], 0⟩ ⟨7, ["dataBound"]⟩ = .error msg) := by
  constructor
  · exact ( claim_C3_theorem ⟨"kendoChart", [], ["dataBound"], 0⟩ ⟨7, ["dataBound"]⟩
      "dataBound" (by decide)).1 (by decide)
  · exact ( claim_C3_theorem ⟨"kendoChart", [], [], 0⟩ ⟨7, ["dataBound"]⟩
      "dataBound" (by decide)).2 (by decide)

/-- C4: a proxy handler registered by `getEventOptions`, when invoked by the
native widget, dispatches nothing synchronously (the fired-event log is
unchanged inside the native callback) and queues exactly one micro-task; when
the task queue later flushes that task — i.e. after the binding system's
current update cycle has completed — exactly one DOM event is re-dispatched
on the host element under the hyphenated native event name. -/
theorem claim_C4_theorem (wb : WidgetBase) (element : DomElement) (o : Obj)
    (ev : String) (v : JsValue)
    (hok : wb.getEventOptions element = .ok o)
    (hv : o.get ev = some v) :
    ∀ (sys : EventSystem) (e : JsValue),
      (invokeHandler sys v e).fired = sys.fired ∧
      (invokeHandler sys v e).queue = sys.queue ++ [⟨element.id, ev, e⟩] ∧
      ∀ f : List DomEvent,
        (runNextTask ⟨[⟨element.id, ev, e⟩], f⟩).fired =
          f ++ [⟨element.id, _hyphenate ev, e⟩] ∧
        (runNextTask ⟨[⟨element.id, ev, e⟩], f⟩).queue = [] := by
  have hval := getEventOptions_ok_valid wb element o hok ev
  rw [hv] at hval
  have hvh : v = JsValue.handler element.id ev := by
    by_cases hmem : ev ∈ getEventsFromAttributes element
    · rw [if_pos hmem] at hval
      cases hval
      rfl
    · rw [if_neg hmem] at hval
      cases hval
  subst hvh
  intro sys e
  refine ⟨rfl, rfl, ?_⟩
  intro f
  exact ⟨rfl, rfl⟩

/-- C4 witness: the `dataBound` proxy of a concrete chart control queues one
task and no synchronous event; flushing the queue dispatches exactly one
`data-bound` DOM event on element 7. -/
theorem claim_C4_witness :
    (invokeHandler ⟨[], []⟩ (JsValue.handler 7 "dataBound") JsValue.null).fired = [] ∧
    (invokeHandler ⟨[], []⟩ (JsValue.handler 7 "dataBound") JsValue.null).queue =
      [⟨7, "dataBound", JsValue.null⟩] ∧
    (runNextTask ⟨[⟨7, "dataBound", JsValue.null⟩], []⟩).fired =
      [⟨7, "data-bound", JsValue.null⟩] ∧
    (runNextTask ⟨[⟨7, "dataBound", JsValue.null⟩], []⟩).queue = [] := by
  have h := claim_C4_theorem ⟨"kendoChart", [], ["dataBound"], 0⟩ ⟨7, ["dataBound"]⟩
    [("dataBound", JsValue.handler 7 "dataBound")] "dataBound"
    (JsValue.handler 7 "dataBound") rfl rfl ⟨[], []⟩ JsValue.null
  obtain ⟨h1, h2, h3⟩ := h
  obtain ⟨h4, h5⟩ := h3 []
  refine ⟨h1, by rw [h2]; rfl, ?_, h5⟩
  rw [h4]
  decide

theorem getOptions_ok_of_valid (h : Heap) (wb : WidgetBase) (element : DomElement)
    (hall : ∀ e ∈ getEventsFromAttributes element, e ∈ wb.kendoEvents) :
    ∃ p, wb._getOptions h element = .ok p := by
  obtain ⟨evt, hevt⟩ :=
    eventOptionsGo_ok_of_all_valid wb element (getEventsFromAttributes element) [] hall
  rw [WidgetBase._getOptions]
  rw [show wb.getEventOptions element = .ok evt from hevt]
  exact ⟨_, rfl⟩

/-- C5 (amended): `createWidget` throws synchronously — instantiating no
widget — when its argument object is missing, when `options.element` is
missing, or when `options.parentCtx` is unset (JavaScript-falsy, which is the
check the source performs); when all three are present and every event
attribute on the element names an event in the control's vocabulary, the call
returns a live widget handle. -/
theorem claim_C5_theorem (h : Heap) (wb : WidgetBase) :
    (wb.createWidget h none =
      .error "the createWidget() function needs to be called with an object") ∧
    (∀ (pc : JsValue) (bi : Option (Obj → Obj)),
      wb.createWidget h (some ⟨none, pc, bi⟩) = .error "element is not set") ∧
    (∀ (el : DomElement) (pc : JsValue) (bi : Option (Obj → Obj)),
      pc.truthy = false →
      wb.createWidget h (some ⟨some el, pc, bi⟩) = .error "parentCtx is not set") ∧
    (∀ (el : DomElement) (pc : JsValue) (bi : Option (Obj → Obj)),
      pc.truthy = true →
      (∀ e ∈ getEventsFromAttributes el, e ∈ wb.kendoEvents) →
      ∃ h' w, wb.createWidget h (some ⟨some el, pc, bi⟩) = .ok (h', w)) := by
  refine ⟨rfl, fun pc bi => rfl, ?_, ?_⟩
  · intro el pc bi hpc
    rw [WidgetBase.createWidget]
    simp [hpc]
  · intro el pc bi hpc hall
    obtain ⟨p, hp⟩ := getOptions_ok_of_valid h wb el hall
    rw [WidgetBase.createWidget]
    simp only [hpc, if_true]
    rw [hp]
    exact ⟨_, _, rfl⟩

/-- C5 witness: the three missing-argument shapes each throw on a concrete
control, and a fully supplied call returns a widget handle. -/
theorem claim_C5_witness :
    (WidgetBase.createWidget ⟨[(0, [])]⟩ ⟨"kendoChart", [], [], 0⟩ none =
      .error "the createWidget() function needs to be called with an object") ∧
    (WidgetBase.createWidget ⟨[(0, [])]⟩ ⟨"kendoChart", [], [], 0⟩
      (some ⟨none, JsValue.str "ctx", none⟩) = .error "element is not set") ∧
    (WidgetBase.createWidget ⟨[(0, [])]⟩ ⟨"kendoChart", [], [], 0⟩
      (some ⟨some ⟨1, []⟩, JsValue.undefined, none⟩) = .error "parentCtx is not set") ∧
    (∃ h' w, WidgetBase.createWidget ⟨[(0, [])]⟩ ⟨"kendoChart", [], [], 0⟩
      (some ⟨some ⟨1, []⟩, JsValue.str "ctx", none⟩) = .ok (h', w)) := by
  obtain ⟨h1, h2, h3, h4⟩ := claim_C5_theorem ⟨[(0, [])]⟩ ⟨"kendoChart", [], [], 0⟩
  exact ⟨h1, h2 (JsValue.str "ctx") none,
    h3 ⟨1, []⟩ JsValue.undefined none (by decide),
    h4 ⟨1, []⟩ (JsValue.str "ctx") none (by decide) (by decide)⟩

/-- C5 counterexample: with the argument object, `element` and a truthy
`parentCtx` all present, `createWidget` still throws — the element carries an
event attribute (`bogus`) absent from the control's vocabulary — so "when all
three are present, the call instantiates the widget and returns the live
widget handle" is false as stated. -/
theorem claim_C5_counterexample :
    (JsValue.str "ctx").truthy = true ∧
    WidgetBase.createWidget ⟨[(0, [])]⟩ ⟨"kendoChart", [], [], 0⟩
      (some ⟨some ⟨1, ["bogus"]⟩, JsValue.str "ctx", none⟩) =
      .error "bogus is not an event on the kendoChart control" := by
  exact ⟨rfl, rfl⟩

/-- C6 (amended): for the `WidgetBase`-backed adapters — TreeMap, Tooltip and
Calendar — invoking `attached` without a prior native widget reference makes
exactly one construction call through the shared helper; `AuToolbar.attached`
is an empty function and makes none, so the claim does not hold for every
adapter. -/
theorem claim_C6_theorem (h : Heap) (wb : WidgetBase) :
    (∀ vm : TreeMap, vm.kWidget = none →
      (TreeMap.attached h wb vm).2 = [BaseCall.create]) ∧
    (∀ vm : Tooltip, vm.kWidget = none →
      (Tooltip.attached h wb vm).2 = [BaseCall.create]) ∧
    (∀ vm : Calendar, vm.kWidget = none →
      (Calendar.attached h wb vm).2 = [BaseCall.create]) ∧
    (∀ vm : AuToolbar, vm._component = none →
      (AuToolbar.attached vm).2 = []) :=
  ⟨fun vm _ => rfl, fun vm _ => rfl, fun vm _ => rfl, fun vm _ => rfl⟩

/-- C6 witness: concrete fresh adapters with no prior widget reference. -/
theorem claim_C6_witness :
    (TreeMap.attached ⟨[]⟩ ⟨"kendoTreeMap", [], [], 0⟩
      ⟨⟨1, []⟩, JsValue.undefined, none⟩).2 = [BaseCall.create] ∧
    (Tooltip.attached ⟨[]⟩ ⟨"kendoTooltip", [], [], 0⟩
      ⟨⟨2, []⟩, JsValue.undefined, none⟩).2 = [BaseCall.create] ∧
    (Calendar.attached ⟨[]⟩ ⟨"kendoCalendar", [], [], 0⟩
      ⟨⟨3, []⟩, JsValue.undefined, none⟩).2 = [BaseCall.create] ∧
    (AuToolbar.attached ⟨⟨4, []⟩, [], none⟩).2 = [] := by
  obtain ⟨h1, h2, h3, h4⟩ := claim_C6_theorem (⟨[]⟩ : Heap) ⟨"kendoTreeMap", [], [], 0⟩
  refine ⟨h1 ⟨⟨1, []⟩, JsValue.undefined, none⟩ rfl, ?_, ?_, h4 ⟨⟨4, []⟩, [], none⟩ rfl⟩
  · exact (claim_C6_theorem ⟨[]⟩ ⟨"kendoTooltip", [], [], 0⟩).2.1
      ⟨⟨2, []⟩, JsValue.undefined, none⟩ rfl
  · exact (claim_C6_theorem ⟨[]⟩ ⟨"kendoCalendar", [], [], 0⟩).2.2.1
      ⟨⟨3, []⟩, JsValue.undefined, none⟩ rfl

/-- C6 counterexample: `AuToolbar` is an adapter whose `attached` hook,
invoked with no prior native widget reference, makes zero construction
calls — not exactly one as the claim states for every adapter. -/
theorem claim_C6_counterexample :
    (AuToolbar.attached ⟨⟨9, []⟩, [], none⟩).2.length = 0 := rfl

/-- C7 (amended): for the `WidgetBase`-backed adapters — TreeMap, Tooltip and
Calendar — `detached` after a successful `attached` makes exactly one native
destruction call, and `WidgetBase.destroy` disposes unconditionally: on a
live handle it invokes `widget.destroy()` exactly once, and on an unset
handle it raises instead of guarding.  `AuToolbar.detached`, however, guards
on its handle, so detach-after-attach destroys nothing for it and the
per-adapter universal claim fails. -/
theorem claim_C7_theorem (h h' : Heap) (wb : WidgetBase) :
    (∀ (vm vm' : TreeMap), (TreeMap.attached h wb vm).1 = .ok (h', vm') →
      ∃ w, TreeMap.detached vm' = .ok [w]) ∧
    (∀ (vm vm' : Tooltip), (Tooltip.attached h wb vm).1 = .ok (h', vm') →
      ∃ w, Tooltip.detached vm' = .ok [w]) ∧
    (∀ (vm vm' : Calendar), (Calendar.attached h wb vm).1 = .ok (h', vm') →
      ∃ w, Calendar.detached vm' = .ok [w]) ∧
    (∀ w, WidgetBase.destroy (some w) = .ok [w]) ∧
    (∃ msg, WidgetBase.destroy none = .error msg) := by
  refine ⟨?_, ?_, ?_, fun w => rfl, ⟨_, rfl⟩⟩
  · intro vm vm' hok
    rw [TreeMap.attached, TreeMap.recreate] at hok
    cases hcw : wb.createWidget h (some { element := some vm.element, parentCtx := vm.parent }) with
    | ok p =>
      rw [hcw] at hok
      cases hok
      exact ⟨p.2, rfl⟩
    | error e =>
      rw [hcw] at hok
      cases hok
  · intro vm vm' hok
    rw [Tooltip.attached, Tooltip.recreate] at hok
    cases hcw : wb.createWidget h (some { element := some vm.element, parentCtx := vm.parent }) with
    | ok p =>
      rw [hcw] at hok
      cases hok
      exact ⟨p.2, rfl⟩
    | error e =>
      rw [hcw] at hok
      cases hok
  · intro vm vm' hok
    rw [Calendar.attached, Calendar.recreate] at hok
    cases hcw : wb.createWidget h (some { element := some vm.element, parentCtx := vm.parent }) with
    | ok p =>
      rw [hcw] at hok
      cases hok
      exact ⟨p.2, rfl⟩
    | error e =>
      rw [hcw] at hok
      cases hok

/-- Concrete successful TreeMap attach for the C7 witness. -/
def w7Heap : Heap := ⟨[(0, [("options", .ref 1)]), (1, [])]⟩

def w7WB : WidgetBase := ⟨"kendoTreeMap", [], [], 0⟩

def w7VM : TreeMap := ⟨⟨1, []⟩, JsValue.str "ctx", none⟩

def w7Res : Except String (Heap × TreeMap) := (TreeMap.attached w7Heap w7WB w7VM).1

/-- Extracts the updated TreeMap state from a successful attach. -/
def treeMapOf (x : Except String (Heap × TreeMap)) : TreeMap :=
  match x with
  | .ok p => p.2
  | .error _ => ⟨⟨0, []⟩, JsValue.undefined, none⟩

/-- Extracts the updated heap from a successful TreeMap attach. -/
def treeMapHeapOf (x : Except String (Heap × TreeMap)) : Heap :=
  match x with
  | .ok p => p.1
  | .error _ => ⟨[]⟩

/-- C7 witness: after a concrete successful TreeMap attach, `detached` makes
exactly one destruction call; a live handle is destroyed exactly once and an
unset handle raises. -/
theorem claim_C7_witness :
    (∃ w, TreeMap.detached (treeMapOf w7Res) = .ok [w]) ∧
    WidgetBase.destroy (some 5) = .ok [5] ∧
    (∃ msg, WidgetBase.destroy none = .error msg) := by
  obtain ⟨h1, _, _, h4, h5⟩ := claim_C7_theorem w7Heap (treeMapHeapOf w7Res) w7WB
  exact ⟨h1 w7VM (treeMapOf w7Res) rfl, h4 5, h5⟩

/-- C7 counterexample: `AuToolbar` detached directly after its (empty)
attached hook performs zero destruction calls, not exactly one as the claim
states for every adapter. -/
theorem claim_C7_counterexample :
    AuToolbar.detached (AuToolbar.attached ⟨⟨9, []⟩, [], none⟩).1 = .ok [] ∧
    ([] : List Nat).length ≠ 1 := ⟨rfl, by decide⟩

/-- C8 (amended): a bound-property change after attach triggers at most one
widget update or recreation — `Calendar.propertyChanged` always exactly one,
`AuToolbar.enableChanged` one with a live component and zero without, and
TreeMap (which declares no change handler) always zero — so "never zero"
fails while "never more than one" holds. -/
theorem claim_C8_theorem :
    (∀ (vm : Calendar) (p : String) (nv ov : JsValue),
      (Calendar.propertyChanged vm p nv ov).length = 1) ∧
    (∀ (vm : AuToolbar) (nv : JsValue),
      (AuToolbar.enableChanged vm nv).length ≤ 1) ∧
    (∀ (vm : TreeMap) (p : String) (nv : JsValue),
      (TreeMap.propertyChangeResponse vm p nv).length = 0) := by
  refine ⟨fun vm p nv ov => rfl, ?_, fun vm p nv => rfl⟩
  intro vm nv
  rw [AuToolbar.enableChanged]
  cases vm._component <;> simp

/-- C8 counterexample: on a live TreeMap adapter a bound-property change
triggers zero updates and zero recreations (the class has no change
handler), and on an AuToolbar without a live component `enableChanged` also
does nothing — contradicting "never zero". -/
theorem claim_C8_counterexample :
    (TreeMap.propertyChangeResponse ⟨⟨2, []⟩, JsValue.str "ctx", some 4⟩
      "title" (JsValue.str "x")).length = 0 ∧
    (AuToolbar.enableChanged ⟨⟨2, []⟩, [], none⟩ (JsValue.bool true)).length = 0 :=
  ⟨rfl, rfl⟩

/-- C9: detach-without-attach is inconsistent across adapters —
`AuToolbar.detached` guards on its `_component` handle and is a no-op with no
widget, while Tooltip, TreeMap and Calendar pass their unset `kWidget`
straight to the unguarded `WidgetBase.destroy`, which raises on the undefined
handle. -/
theorem claim_C9_theorem :
    (∀ vm : AuToolbar, vm._component = none → AuToolbar.detached vm = .ok []) ∧
    (∀ vm : Tooltip, vm.kWidget = none →
      ∃ msg, Tooltip.detached vm = .error msg) ∧
    (∀ vm : TreeMap, vm.kWidget = none →
      ∃ msg, TreeMap.detached vm = .error msg) ∧
    (∀ vm : Calendar, vm.kWidget = none →
      ∃ msg, Calendar.detached vm = .error msg) := by
  refine ⟨?_, ?_, ?_, ?_⟩
  · intro vm hc
    rw [AuToolbar.detached, hc]
  · intro vm hc
    rw [Tooltip.detached, hc]
    exact ⟨_, rfl⟩
  · intro vm hc
    rw [TreeMap.detached, hc]
    exact ⟨_, rfl⟩
  · intro vm hc
    rw [Calendar.detached, hc]
    exact ⟨_, rfl⟩

/-- C9 witness: concrete never-attached adapters — the toolbar's detach is a
silent no-op while the tooltip's raises. -/
theorem claim_C9_witness :
    AuToolbar.detached ⟨⟨1, []⟩, [], none⟩ = .ok [] ∧
    (∃ msg, Tooltip.detached ⟨⟨2, []⟩, JsValue.undefined, none⟩ = .error msg) := by
  obtain ⟨h1, h2, _, _⟩ := claim_C9_theorem
  exact ⟨h1 ⟨⟨1, []⟩, [], none⟩ rfl, h2 ⟨⟨2, []⟩, JsValue.undefined, none⟩ rfl⟩


theorem createWidget_ok_case (h : Heap) (wb : WidgetBase) (element : DomElement)
    (pc : JsValue) (bi : Option (Obj → Obj)) (h1 : Heap) (allRef : Nat)
    (hpc : pc.truthy = true)
    (hgo : wb._getOptions h element = .ok (h1, allRef)) :
    wb.createWidget h (some ⟨some element, pc, bi⟩) =
      .ok ((((match bi, h1.lookup allRef with
              | some f, some o => h1.setObj allRef (f o)
              | _, _ => h1).setField allRef "_$parent" (JsValue.arrOne pc)).alloc []).1.setField
            (((match bi, h1.lookup allRef with
              | some f, some o => h1.setObj allRef (f o)
              | _, _ => h1).setField allRef "_$parent" (JsValue.arrOne pc)).alloc []).2
            "_$parent" pc,
          (((match bi, h1.lookup allRef with
              | some f, some o => h1.setObj allRef (f o)
              | _, _ => h1).setField allRef "_$parent" (JsValue.arrOne pc)).alloc []).2) := by
  rw [WidgetBase.createWidget]
  simp only [hpc, if_true]
  rw [hgo]

theorem createWidget_tail_frame (h2 : Heap) (allRef : Nat) (pc : JsValue)
    (vmRef ro : Nat) (vmFields litFields : Obj)
    (hvm2 : h2.lookup vmRef = some vmFields)
    (hro2 : h2.lookup ro = some litFields)
    (hvmall : vmRef ≠ allRef) (hroall : ro ≠ allRef) :
    ((((h2.setField allRef "_$parent" (JsValue.arrOne pc)).alloc []).1.setField
        ((h2.setField allRef "_$parent" (JsValue.arrOne pc)).alloc []).2
        "_$parent" pc).lookup vmRef = some vmFields) ∧
    ((((h2.setField allRef "_$parent" (JsValue.arrOne pc)).alloc []).1.setField
        ((h2.setField allRef "_$parent" (JsValue.arrOne pc)).alloc []).2
        "_$parent" pc).lookup ro = some litFields) ∧
    ((((h2.setField allRef "_$parent" (JsValue.arrOne pc)).alloc []).1.setField
        ((h2.setField allRef "_$parent" (JsValue.arrOne pc)).alloc []).2
        "_$parent" pc).getField
        ((h2.setField allRef "_$parent" (JsValue.arrOne pc)).alloc []).2 "_$parent" = pc) := by
  have hvm3 : (h2.setField allRef "_$parent" (JsValue.arrOne pc)).lookup vmRef =
      some vmFields := by
    rw [Heap.lookup_setField_ne h2 allRef vmRef _ _ hvmall]
    exact hvm2
  have hro3 : (h2.setField allRef "_$parent" (JsValue.arrOne pc)).lookup ro =
      some litFields := by
    rw [Heap.lookup_setField_ne h2 allRef ro _ _ hroall]
    exact hro2
  have hvmne3 : vmRef ≠ (h2.setField allRef "_$parent" (JsValue.arrOne pc)).freshRef :=
    Heap.ne_freshRef_of_lookup _ vmRef vmFields hvm3
  have hrone3 : ro ≠ (h2.setField allRef "_$parent" (JsValue.arrOne pc)).freshRef :=
    Heap.ne_freshRef_of_lookup _ ro litFields hro3
  have hw4 := Heap.lookup_alloc_self (h2.setField allRef "_$parent" (JsValue.arrOne pc)) []
  refine ⟨?_, ?_, ?_⟩
  · rw [Heap.lookup_setField_ne
        ((h2.setField allRef "_$parent" (JsValue.arrOne pc)).alloc []).1
        ((h2.setField allRef "_$parent" (JsValue.arrOne pc)).alloc []).2
        vmRef "_$parent" pc hvmne3,
      Heap.lookup_alloc_ne _ _ _ hvmne3]
    exact hvm3
  · rw [Heap.lookup_setField_ne
        ((h2.setField allRef "_$parent" (JsValue.arrOne pc)).alloc []).1
        ((h2.setField allRef "_$parent" (JsValue.arrOne pc)).alloc []).2
        ro "_$parent" pc hrone3,
      Heap.lookup_alloc_ne _ _ _ hrone3]
    exact hro3
  · rw [Heap.getField, Heap.lookup_setField_self _ _ "_$parent" pc [] hw4]
    rfl

/-- C10: `createWidget` leaves the linked view model untouched — the merge in
`_getOptions` targets a fresh empty object, so after a successful call the
view model object (hence every bindable property it holds) and its `options`
literal object hold exactly the fields they held before, and the `_$parent`
back-reference lands on the returned widget (and the fresh merged object),
never on the view model's options. -/
theorem claim_C10_theorem (h : Heap) (wb : WidgetBase) (opts : CreateWidgetOptions)
    (vmFields litFields : Obj) (ro : Nat) (h' : Heap) (w : Nat)
    (hvm : h.lookup wb.viewModel = some vmFields)
    (hopt : vmFields.get "options" = some (.ref ro))
    (hro : h.lookup ro = some litFields)
    (hrun : wb.createWidget h (some opts) = .ok (h', w)) :
    h'.lookup wb.viewModel = some vmFields ∧
    h'.lookup ro = some litFields ∧
    h'.getField w "_$parent" = opts.parentCtx := by
  obtain ⟨elOpt, pc, bi⟩ := opts
  cases elOpt with
  | none =>
    rw [WidgetBase.createWidget] at hrun
    cases hrun
  | some element =>
    cases hpc : pc.truthy with
    | false =>
      rw [WidgetBase.createWidget] at hrun
      simp only [hpc, Bool.false_eq_true, if_false] at hrun
      cases hrun
    | true =>
      cases hgo : wb._getOptions h element with
      | error msg =>
        rw [WidgetBase.createWidget] at hrun
        simp only [hpc, if_true] at hrun
        rw [hgo] at hrun
        cases hrun
      | ok p =>
        obtain ⟨h1, allRef⟩ := p
        obtain ⟨evt, _, hr, hh1, hall⟩ :=
          getOptions_ok_characterization h wb element h1 allRef hgo
        have hvmne : wb.viewModel ≠ h.freshRef :=
          Heap.ne_freshRef_of_lookup h wb.viewModel vmFields hvm
        have hrone : ro ≠ h.freshRef := Heap.ne_freshRef_of_lookup h ro litFields hro
        have hvm1 : h1.lookup wb.viewModel = some vmFields := by
          rw [hh1, Heap.lookup_alloc_ne h _ wb.viewModel hvmne]
          exact hvm
        have hro1 : h1.lookup ro = some litFields := by
          rw [hh1, Heap.lookup_alloc_ne h _ ro hrone]
          exact hro
        have hvmall : wb.viewModel ≠ allRef := by rw [hr]; exact hvmne
        have hroall : ro ≠ allRef := by rw [hr]; exact hrone
        rw [createWidget_ok_case h wb element pc bi h1 allRef hpc hgo] at hrun
        injection hrun with hpair
        obtain ⟨hh', hw⟩ := Prod.mk.inj hpair
        subst hh'
        subst hw
        cases bi with
        | none =>
          exact createWidget_tail_frame h1 allRef pc wb.viewModel ro vmFields litFields
            hvm1 hro1 hvmall hroall
        | some f =>
          rw [hall]
          have hvm2 : (h1.setObj allRef (f (((Obj.assignObj []
              (h.fieldsOf (h.getField wb.viewModel "options"))).assignObj
              (pruneOptions (wb.getOptionsFromBindables h))).assignObj evt))).lookup
              wb.viewModel = some vmFields := by
            rw [Heap.lookup_setObj_ne h1 allRef wb.viewModel _ hvmall]
            exact hvm1
          have hro2 : (h1.setObj allRef (f (((Obj.assignObj []
              (h.fieldsOf (h.getField wb.viewModel "options"))).assignObj
              (pruneOptions (wb.getOptionsFromBindables h))).assignObj evt))).lookup
              ro = some litFields := by
            rw [Heap.lookup_setObj_ne h1 allRef ro _ hroall]
            exact hro1
          exact createWidget_tail_frame _ allRef pc wb.viewModel ro vmFields litFields
            hvm2 hro2 hvmall hroall

/-- Concrete view-model and options-literal objects for the C10 witness. -/
def w10Heap : Heap :=
  ⟨[(0, [("options", .ref 1), ("kTitle", .str "x")]), (1, [("title", .num 2)])]⟩

def w10WB : WidgetBase := ⟨"kendoTreeMap", [("title", .null)], [], 0⟩

def w10Opts : CreateWidgetOptions := ⟨some ⟨5, []⟩, .str "ctx", none⟩

def w10Run : Except String (Heap × Nat) :=
  WidgetBase.createWidget w10Heap w10WB (some w10Opts)

/-- C10 witness: a concrete successful `createWidget` run leaves the view
model and its options literal byte-for-byte unchanged while the returned
widget carries the `_$parent` back-reference. -/
theorem claim_C10_witness :
    (runHeap w10Run).lookup w10WB.viewModel =
      some [("options", .ref 1), ("kTitle", .str "x")] ∧
    (runHeap w10Run).lookup 1 = some [("title", .num 2)] ∧
    (runHeap w10Run).getField (runRef w10Run) "_$parent" = JsValue.str "ctx" :=
  claim_C10_theorem w10Heap w10WB w10Opts
    [("options", .ref 1), ("kTitle", .str "x")] [("title", .num 2)] 1
    (runHeap w10Run) (runRef w10Run) rfl rfl rfl rfl
